import Mathlib

/-!
Shallow embedding of `generate_dummy_dataset_no_ticker.py`.

The script builds a balanced dummy dataset of financial-news sentences:
for each of 12 price-movement categories it generates
`num_samples // 12` records (random ticker, random template, ticker
substituted, period appended), shuffles all records, writes them to a
CSV file with header `ticker,news,change`, prints per-category counts
(computed with Python's substring test `category in d["change"]`) and
then prints the first three records as examples.

Python's standard-library random source is modelled as a deterministic
stream of naturals consumed by `choice` (uniform draw = element at
`next mod length`; raises IndexError on an empty sequence, as
`random.choice` does) and by the shuffle (a permutation driven by the
stream).  Machine integers are `Int` with Python's floor division
`Int.fdiv`.  Exceptions are modelled by `PyErr`; the run result records
whether the output file was written and whether an exception aborted
the run.
-/

/-- Python exception vocabulary relevant to this program.  The script
itself only ever raises `IndexError` (from `random.choice` on an empty
sequence and from `data[i]` out of range); `ConfigurationError` is the
error class the spec postulates, and `ZeroDivisionError` would arise
from `//` with an empty category catalog. -/
inductive PyErr where
  | indexError
  | configurationError
  | zeroDivisionError
deriving DecidableEq, Repr

/-- State of the pseudo-random source: a deterministic stream of
naturals together with the current position.  This models Python's
seeded Mersenne-Twister: after `random.seed(seed)` the stream of draws
is a fixed function of the seed. -/
structure RState where
  seq : Nat → Nat
  pos : Nat

/-- Draw the next raw value from the random source. -/
def RState.next (s : RState) : Nat × RState :=
  (s.seq s.pos, ⟨s.seq, s.pos + 1⟩)

/-- `random.choice(seq)`: uniform draw modelled as indexing by the next
stream value modulo the length; raises IndexError on an empty
sequence. -/
def choice {α : Type} : List α → RState → Except PyErr (α × RState)
  | [], _ => .error .indexError
  | a :: rest, s =>
    let (k, s1) := s.next
    .ok ((a :: rest).get ⟨k % (a :: rest).length, Nat.mod_lt _ (Nat.succ_pos _)⟩, s1)

/-- One output row of the dataset: `{ticker, news, change}`. -/
structure Record where
  ticker : String
  news : String
  change : String
deriving DecidableEq, Repr

/-- The fixed ticker catalog `TICKERS`. -/
def TICKERS : List String :=
  ["NVDA", "AAPL", "GOOG", "MSFT", "TSLA", "AMZN", "META", "JPM", "V", "UNH",
   "NFLX", "AMD", "INTC", "CSCO", "ORCL", "IBM", "CRM", "ADBE", "PYPL", "QCOM",
   "BA", "CAT", "DIS", "GE", "GM", "F", "WMT", "TGT", "HD", "LOW"]

/-- The fixed category → templates catalog `NEWS_TEMPLATES`, in the
source's (insertion) order.  Python dicts preserve insertion order, so
`list(NEWS_TEMPLATES.keys())` is exactly the key order below. -/
def NEWS_TEMPLATES : List (String × List String) :=
  [("Gains slightly",
    ["{ticker} edges up slightly on neutral trading session",
     "{ticker} rises slightly after minor positive news",
     "{ticker} advances slightly on low volume trading",
     "{ticker} climbs slightly following small upgrade",
     "{ticker} moves up slightly in quiet session"]),
   ("Gains modestly",
    ["{ticker} gains modestly on encouraging earnings data",
     "{ticker} rises modestly after positive analyst comment",
     "{ticker} advances modestly following good news",
     "{ticker} climbs modestly on sector strength",
     "{ticker} improves modestly after upbeat guidance"]),
   ("Gains moderately",
    ["{ticker} gains moderately on strong earnings beat",
     "{ticker} rises moderately after partnership announcement",
     "{ticker} advances moderately following revenue growth",
     "{ticker} climbs moderately on positive outlook",
     "{ticker} rallies moderately after analyst upgrade"]),
   ("Gains strongly",
    ["{ticker} gains strongly on exceptional quarterly results",
     "{ticker} surges strongly after major deal announcement",
     "{ticker} advances strongly following breakthrough news",
     "{ticker} rallies strongly on impressive profit margins",
     "{ticker} climbs strongly after securing key contract"]),
   ("Gains sharply",
    ["{ticker} gains sharply on blockbuster earnings surprise",
     "{ticker} surges sharply after transformative acquisition",
     "{ticker} soars sharply following game-changing innovation",
     "{ticker} rallies sharply on explosive revenue growth",
     "{ticker} jumps sharply after landmark partnership deal"]),
   ("Declines slightly",
    ["{ticker} edges down slightly on profit-taking",
     "{ticker} dips slightly in light trading session",
     "{ticker} falls slightly on minor concerns",
     "{ticker} slips slightly after neutral news",
     "{ticker} drops slightly on low volume"]),
   ("Declines modestly",
    ["{ticker} declines modestly on mixed earnings report",
     "{ticker} falls modestly after cautious analyst note",
     "{ticker} drops modestly following weak guidance",
     "{ticker} slips modestly on sector weakness",
     "{ticker} retreats modestly after disappointing data"]),
   ("Declines moderately",
    ["{ticker} declines moderately on earnings miss",
     "{ticker} falls moderately after analyst downgrade",
     "{ticker} drops moderately following revenue shortfall",
     "{ticker} slides moderately on regulatory concerns",
     "{ticker} weakens moderately after guidance cut"]),
   ("Declines strongly",
    ["{ticker} declines strongly on major earnings disappointment",
     "{ticker} falls strongly after losing key customer",
     "{ticker} drops strongly following weak outlook",
     "{ticker} slides strongly on significant concerns",
     "{ticker} tumbles strongly after unexpected bad news"]),
   ("Declines sharply",
    ["{ticker} declines sharply on catastrophic earnings miss",
     "{ticker} plunges sharply after scandal revelation",
     "{ticker} falls sharply following CEO resignation",
     "{ticker} crashes sharply on regulatory probe announcement",
     "{ticker} tumbles sharply after product recall"]),
   ("Edges up slightly",
    ["{ticker} edges up slightly as market remains cautious",
     "{ticker} inches up slightly on mixed sentiment",
     "{ticker} ticks up slightly in range-bound trading",
     "{ticker} rises fractionally in quiet session",
     "{ticker} advances marginally on low volatility"]),
   ("Edges down slightly",
    ["{ticker} edges down slightly as investors take pause",
     "{ticker} inches down slightly on uncertainty",
     "{ticker} ticks down slightly in sideways trading",
     "{ticker} falls fractionally in quiet session",
     "{ticker} declines marginally on profit-taking"])]

/-- The category names, `list(NEWS_TEMPLATES.keys())`. -/
def categoryNames : List String := NEWS_TEMPLATES.map Prod.fst

/-- `template.format(ticker=t)`: replace every occurrence of the
placeholder `{ticker}` by `t` (all templates contain it exactly once,
at the start, but the definition is the general substitution). -/
def replacePH (t : List Char) : List Char → List Char
  | [] => []
  | '{' :: 't' :: 'i' :: 'c' :: 'k' :: 'e' :: 'r' :: '}' :: cs => t ++ replacePH t cs
  | c :: cs => c :: replacePH t cs

/-- String-level wrapper for `template.format(ticker=t)`. -/
def formatTicker (tmpl t : String) : String :=
  ⟨replacePH t.data tmpl.data⟩

/-- The body of the sampling loop (lines 140-156 of the script): draw a
ticker, draw a template, build `news` and `change`, return the record. -/
def genRecord (tickers : List String) (cat : String) (tmpls : List String)
    (s : RState) : Except PyErr (Record × RState) :=
  match choice tickers s with
  | .error e => .error e
  | .ok (t, s1) =>
    match choice tmpls s1 with
    | .error e => .error e
    | .ok (tp, s2) =>
      .ok ({ ticker := t, news := formatTicker tp t ++ ".", change := cat ++ "." }, s2)

/-- `for i in range(k)` over one category: generate `k` records in draw
order. -/
def genCategory (tickers : List String) (cat : String) (tmpls : List String) :
    Nat → RState → Except PyErr (List Record × RState)
  | 0, s => .ok ([], s)
  | k + 1, s =>
    match genRecord tickers cat tmpls s with
    | .error e => .error e
    | .ok (r, s1) =>
      match genCategory tickers cat tmpls k s1 with
      | .error e => .error e
      | .ok (rest, s2) => .ok (r :: rest, s2)

/-- `for category in categories` (lines 137-156): the per-category
blocks concatenated in catalog order. -/
def buildData (tickers : List String) :
    List (String × List String) → Nat → RState → Except PyErr (List Record × RState)
  | [], _, s => .ok ([], s)
  | entry :: rest, k, s =>
    match genCategory tickers entry.1 entry.2 k s with
    | .error e => .error e
    | .ok (block, s1) =>
      match buildData tickers rest k s1 with
      | .error e => .error e
      | .ok (tail, s2) => .ok (block ++ tail, s2)

/-- One step of the modelled `random.shuffle`: with `fuel` steps left,
draw an index, move that element to the front of the output, recurse on
the remainder.  `random.shuffle` applies a random permutation driven by
the seeded source; this is that permutation, with the index draws taken
from the stream. -/
def shuffleIter {α : Type} : Nat → List α → RState → List α × RState
  | 0, l, s => (l, s)
  | fuel + 1, l, s =>
    match l with
    | [] => ([], s)
    | a :: rest =>
      let (k, s1) := s.next
      let i : Fin (a :: rest).length := ⟨k % (a :: rest).length, Nat.mod_lt _ (Nat.succ_pos _)⟩
      let (tail, s2) := shuffleIter fuel ((a :: rest).eraseIdx i.1) s1
      ((a :: rest).get i :: tail, s2)

/-- `random.shuffle(data)` (line 159). -/
def shuffleList {α : Type} (l : List α) (s : RState) : List α × RState :=
  shuffleIter l.length l s

/-- Does a CSV field need quoting under Python's QUOTE_MINIMAL rule?
(contains the delimiter, the quote char, or a line-break char). -/
def needsQuote (cs : List Char) : Bool :=
  cs.any fun c => c = ',' || c = '"' || c = '\r' || c = '\n'

/-- Double every quote character (the csv writer's escaping inside a
quoted field). -/
def escQuotes : List Char → List Char
  | [] => []
  | c :: cs => if c = '"' then '"' :: '"' :: escQuotes cs else c :: escQuotes cs

/-- Serialize one CSV field with minimal quoting. -/
def csvField (s : String) : List Char :=
  if needsQuote s.data then '"' :: (escQuotes s.data ++ ['"']) else s.data

/-- Serialize one data row, fields in `ticker, news, change` order,
terminated by CRLF (the csv module's default line terminator). -/
def csvRow (r : Record) : List Char :=
  csvField r.ticker ++ ',' :: csvField r.news ++ ',' :: csvField r.change ++ ['\r', '\n']

/-- The header row written by `writer.writeheader()`. -/
def csvHeader : List Char :=
  ("ticker,news,change").data ++ ['\r', '\n']

/-- The full contents of the output file (lines 162-166): header, then
one row per record in shuffled order. -/
def csvContent (data : List Record) : List Char :=
  csvHeader ++ (data.map csvRow).flatten

/-- Python's substring test `needle in hay`. -/
def containsSub (hay needle : List Char) : Bool :=
  hay.tails.any fun t => List.isPrefixOf needle t

/-- Outcome of one full run of `generate_dataset`:
`written` is the contents of the output file if the write step was
reached (`none` means the run aborted before any I/O), `err` the
exception that aborted the run if any, `data` the final shuffled
dataset. -/
structure RunResult where
  written : Option (List Char)
  err : Option PyErr
  data : List Record
deriving DecidableEq, Repr

/-- The whole of `generate_dataset(num_samples, ...)` with explicit
catalogs and random state:
`samples_per_category = num_samples // len(categories)` (Python floor
division; a negative quotient makes `range` empty, hence `toNat`), the
sampling loop, the shuffle, the CSV write, the per-category count
report (pure, cannot fail), and the example-printing loop which
accesses `data[0]`, `data[1]`, `data[2]` and raises IndexError when the
dataset has fewer than 3 records. -/
def generate_dataset (tickers : List String) (catalog : List (String × List String))
    (numSamples : Int) (s : RState) : RunResult :=
  if catalog.length = 0 then ⟨none, some .zeroDivisionError, []⟩
  else
    match buildData tickers catalog (Int.fdiv numSamples catalog.length).toNat s with
    | .error e => ⟨none, some e, []⟩
    | .ok (d, s1) =>
      let data := (shuffleList d s1).1
      let contents := csvContent data
      if 3 ≤ data.length then ⟨some contents, none, data⟩
      else ⟨some contents, some .indexError, data⟩

/-- The run with the script's fixed catalogs. -/
def runFixed (numSamples : Int) (s : RState) : RunResult :=
  generate_dataset TICKERS NEWS_TEMPLATES numSamples s

/-- `random.seed(seed)`: the state of the random source is a
deterministic function of the seed alone. -/
def seedState (seed : Nat) : RState :=
  ⟨fun i => seed + i, 0⟩

/-- `__main__`: `random.seed(42); generate_dataset(num_samples, ...)`. -/
def mainRun (seed : Nat) (numSamples : Int) : RunResult :=
  runFixed numSamples (seedState seed)

/-- A concrete random state whose draws are all zero, used to exhibit
concrete runs. -/
def zeroState : RState := ⟨fun _ => 0, 0⟩

/-- The placeholder, as a char list. -/
def phChars : List Char := ['{', 't', 'i', 'c', 'k', 'e', 'r', '}']

/-- A char that never triggers CSV quoting. -/
def cleanChar (c : Char) : Bool :=
  !(c = ',' || c = '"' || c = '\r' || c = '\n')

/-- A field that never triggers CSV quoting. -/
def cleanL (cs : List Char) : Bool := cs.all cleanChar

/-- Well-formedness of one template: it starts with the placeholder and
the remainder is non-empty, has no further brace, no period, and no
CSV-special character. -/
def tmplOK (tp : String) : Bool :=
  List.isPrefixOf phChars tp.data &&
  !(tp.data.drop 8).isEmpty &&
  (tp.data.drop 8).all fun c => cleanChar c && !(c = '{') && !(c = '.')

/-- Well-formedness of one category name: no period and no CSV-special
character. -/
def catOK (c : String) : Bool :=
  c.data.all fun ch => cleanChar ch && !(ch = '.')

/-- What the loop body guarantees of each record it appends. -/
def RecordOK (tickers : List String) (cat : String) (tmpls : List String)
    (r : Record) : Prop :=
  r.ticker ∈ tickers ∧ r.change = cat ++ "." ∧
    ∃ tp ∈ tmpls, r.news = formatTicker tp r.ticker ++ "."

/-- "Ends with exactly one trailing period": the last char is `'.'` and
the char before it (if any) is not. -/
def endsOnePeriod (cs : List Char) : Bool :=
  (cs.getLast? == some '.') && !(cs.dropLast.getLast? == some '.')

/-- A standard delimited-text reader for the simple (quote-free) case:
one pass over the characters, splitting fields at `','` and rows at
CRLF (or a bare LF).  On the files this program produces no field ever
needs quoting, so this is exactly what any standard CSV reader does. -/
def pcsv : List Char → List Char → List (List Char) → List (List (List Char))
  | [], f, row => if f = [] ∧ row = [] then [] else [row ++ [f]]
  | ',' :: cs, f, row => pcsv cs [] (row ++ [f])
  | '\r' :: '\n' :: cs, f, row => (row ++ [f]) :: pcsv cs [] []
  | '\n' :: cs, f, row => (row ++ [f]) :: pcsv cs [] []
  | c :: cs, f, row => pcsv cs (f ++ [c]) row

/-! ### Basic lemmas about the embedded primitives -/

theorem replacePH_nil (t : List Char) : replacePH t [] = [] := rfl

theorem replacePH_placeholder (t cs : List Char) :
    replacePH t ('{' :: 't' :: 'i' :: 'c' :: 'k' :: 'e' :: 'r' :: '}' :: cs) =
      t ++ replacePH t cs := rfl

theorem replacePH_cons_ne (t : List Char) (c : Char) (cs : List Char)
    (hc : c ≠ '{') : replacePH t (c :: cs) = c :: replacePH t cs := by
  rw [replacePH.eq_def]
  split
  · simp_all
  · rename_i heq
    exact absurd (List.cons.inj heq).1 hc
  · rename_i heq
    rw [(List.cons.inj heq).1, (List.cons.inj heq).2]

theorem replacePH_no_brace (t : List Char) :
    ∀ cs : List Char, '{' ∉ cs → replacePH t cs = cs := by
  intro cs
  induction cs with
  | nil => intro _; rfl
  | cons c cs ih =>
    intro h
    have hc : c ≠ '{' := fun e => h (e ▸ List.mem_cons_self c cs)
    rw [replacePH_cons_ne t c cs hc]
    rw [ih (fun hm => h (List.mem_cons_of_mem c hm))]


theorem replacePH_of_split (t tail : List Char) (h : '{' ∉ tail) :
    replacePH t (phChars ++ tail) = t ++ tail := by
  show replacePH t ('{' :: 't' :: 'i' :: 'c' :: 'k' :: 'e' :: 'r' :: '}' :: tail) = t ++ tail
  rw [replacePH_placeholder, replacePH_no_brace t tail h]

/-! ### Decidable facts about the fixed catalogs -/





theorem catalog_ok :
    NEWS_TEMPLATES.all (fun p => catOK p.1 && !p.2.isEmpty && p.2.all tmplOK) = true := by
  decide

theorem tickers_ok :
    (!TICKERS.isEmpty && TICKERS.all fun t => cleanL t.data) = true := by
  decide

theorem categories_count : NEWS_TEMPLATES.length = 12 := by decide

/-! ### The sampling loop: success and shape of the generated data -/


theorem genRecord_ok (tickers tmpls : List String) (cat : String)
    (ht : tickers ≠ []) (hm : tmpls ≠ []) (s : RState) :
    ∃ r s1, genRecord tickers cat tmpls s = .ok (r, s1) ∧
      RecordOK tickers cat tmpls r := by
  match tickers, ht with
  | a :: ta, _ =>
    match tmpls, hm with
    | b :: tb, _ =>
      refine ⟨_, _, rfl, ?_, rfl, ?_⟩
      · exact List.get_mem _ _ _
      · exact ⟨_, List.get_mem _ _ _, rfl⟩

theorem genCategory_ok (tickers tmpls : List String) (cat : String)
    (ht : tickers ≠ []) (hm : tmpls ≠ []) :
    ∀ (k : Nat) (s : RState),
      ∃ out s1, genCategory tickers cat tmpls k s = .ok (out, s1) ∧
        out.length = k ∧ ∀ r ∈ out, RecordOK tickers cat tmpls r := by
  intro k
  induction k with
  | zero => exact fun s => ⟨[], s, rfl, rfl, by simp⟩
  | succ k ih =>
    intro s
    obtain ⟨r, s1, hr, hok⟩ := genRecord_ok tickers tmpls cat ht hm s
    obtain ⟨out, s2, ho, hlen, hall⟩ := ih s1
    refine ⟨r :: out, s2, ?_, by simp [hlen], ?_⟩
    · simp [genCategory, hr, ho]
    · intro x hx
      rcases List.mem_cons.mp hx with h | h
      · exact h ▸ hok
      · exact hall x h

theorem buildData_ok (tickers : List String) (ht : tickers ≠ []) :
    ∀ (catalog : List (String × List String)),
      (∀ p ∈ catalog, p.2 ≠ []) →
      ∀ (k : Nat) (s : RState),
        ∃ out s1, buildData tickers catalog k s = .ok (out, s1) ∧
          out.length = catalog.length * k ∧
          (∀ r ∈ out, ∃ p ∈ catalog, RecordOK tickers p.1 p.2 r) ∧
          ∀ c : String,
            out.countP (fun r => r.change = c ++ ".") =
              k * catalog.countP (fun p => p.1 = c) := by
  intro catalog
  induction catalog with
  | nil =>
    exact fun _ k s => ⟨[], s, rfl, by simp, by simp, by simp⟩
  | cons entry rest ih =>
    intro hcat k s
    obtain ⟨block, s1, hb, hblen, hball⟩ :=
      genCategory_ok tickers entry.2 entry.1 ht
        (hcat entry (List.mem_cons_self _ _)) k s
    obtain ⟨tail, s2, htl, htlen, htall, htcount⟩ :=
      ih (fun p hp => hcat p (List.mem_cons_of_mem _ hp)) k s1
    refine ⟨block ++ tail, s2, ?_, ?_, ?_, ?_⟩
    · simp [buildData, hb, htl]
    · simp [hblen, htlen, Nat.succ_mul, Nat.add_comm]
    · intro r hr
      rcases List.mem_append.mp hr with h | h
      · exact ⟨entry, List.mem_cons_self _ _, hball r h⟩
      · obtain ⟨p, hp, hok⟩ := htall r h
        exact ⟨p, List.mem_cons_of_mem _ hp, hok⟩
    · intro c
      rw [List.countP_append, htcount c]
      have hc : block.countP (fun r => r.change = c ++ ".") =
          if entry.1 = c then k else 0 := by
        rw [← hblen]
        clear hblen hb
        induction block with
        | nil => simp
        | cons r rs ihb =>
          have hr : r.change = entry.1 ++ "." := (hball r (List.mem_cons_self _ _)).2.1
          have hrs := ihb fun x hx => hball x (List.mem_cons_of_mem _ hx)
          by_cases he : entry.1 = c
          · subst he
            simp only [List.countP_cons, hrs, List.length_cons, if_pos rfl]
            simp [hr]
          · have : ¬(r.change = c ++ ".") := by
              rw [hr]
              intro hcontra
              exact he (String.ext (List.append_cancel_right
                (by rw [← String.data_append, ← String.data_append, hcontra])))
            simp only [List.countP_cons, hrs, if_neg he]
            simp [this]
      rw [hc, List.countP_cons]
      by_cases he : entry.1 = c
      · simp only [he, if_pos rfl, decide_eq_true_eq]
        simp
        ring
      · simp [he]

/-! ### The shuffle is a permutation -/

theorem shuffleIter_perm {α : Type} [DecidableEq α] :
    ∀ (fuel : Nat) (l : List α) (s : RState), ((shuffleIter fuel l s).1).Perm l := by
  intro fuel
  induction fuel with
  | zero => intro l s; exact List.Perm.refl l
  | succ fuel ih =>
    intro l s
    match l with
    | [] => exact List.Perm.refl []
    | a :: rest =>
      show (((a :: rest).get _ :: (shuffleIter fuel ((a :: rest).eraseIdx _) _).1)).Perm _
      refine List.Perm.trans (List.Perm.cons _ (ih _ _)) ?_
      refine List.Perm.trans (List.Perm.cons _ (List.erase_getElem ?_).symm) ?_
      · exact Nat.mod_lt _ (Nat.succ_pos _)
      · exact (List.perm_cons_erase (List.get_mem _ _ _)).symm

theorem shuffleList_perm {α : Type} [DecidableEq α] (l : List α) (s : RState) :
    ((shuffleList l s).1).Perm l :=
  shuffleIter_perm l.length l s

/-! ### The full run -/

theorem TICKERS_ne : TICKERS ≠ [] := by decide

theorem NEWS_TEMPLATES_ne : NEWS_TEMPLATES ≠ [] := by decide

theorem NEWS_TEMPLATES_nonempty : ∀ p ∈ NEWS_TEMPLATES, p.2 ≠ [] := by decide

theorem generate_dataset_eq (tickers : List String)
    (catalog : List (String × List String)) (hne : catalog ≠ [])
    (n : Int) (s : RState) (d : List Record) (s1 : RState)
    (hb : buildData tickers catalog (Int.fdiv n catalog.length).toNat s = .ok (d, s1)) :
    generate_dataset tickers catalog n s =
      { written := some (csvContent (shuffleList d s1).1),
        err := if 3 ≤ (shuffleList d s1).1.length then none
               else some PyErr.indexError,
        data := (shuffleList d s1).1 } := by
  unfold generate_dataset
  rw [if_neg (fun h => hne (List.length_eq_zero.mp h))]
  rw [hb]
  by_cases h3 : 3 ≤ (shuffleList d s1).1.length
  · simp [h3]
  · simp [h3]

theorem generate_dataset_err (tickers : List String)
    (catalog : List (String × List String)) (hne : catalog ≠ [])
    (n : Int) (s : RState) (e : PyErr)
    (hb : buildData tickers catalog (Int.fdiv n catalog.length).toNat s = .error e) :
    generate_dataset tickers catalog n s = ⟨none, some e, []⟩ := by
  unfold generate_dataset
  rw [if_neg (fun h => hne (List.length_eq_zero.mp h))]
  rw [hb]

/-- Master characterization of a successful run: the dataset's length,
per-category counts and record shapes, the written file, and the error
outcome of the example-printing loop. -/
theorem generate_dataset_spec (tickers : List String)
    (catalog : List (String × List String))
    (ht : tickers ≠ []) (hcat : ∀ p ∈ catalog, p.2 ≠ []) (hne : catalog ≠ [])
    (n : Int) (s : RState) :
    (generate_dataset tickers catalog n s).data.length
        = catalog.length * (Int.fdiv n catalog.length).toNat ∧
    (∀ r ∈ (generate_dataset tickers catalog n s).data,
        ∃ p ∈ catalog, RecordOK tickers p.1 p.2 r) ∧
    (∀ c : String,
        (generate_dataset tickers catalog n s).data.countP
            (fun r => r.change = c ++ ".")
          = (Int.fdiv n catalog.length).toNat
              * catalog.countP (fun p => p.1 = c)) ∧
    (generate_dataset tickers catalog n s).written
        = some (csvContent (generate_dataset tickers catalog n s).data) ∧
    (generate_dataset tickers catalog n s).err
        = (if 3 ≤ (generate_dataset tickers catalog n s).data.length then none
           else some PyErr.indexError) := by
  obtain ⟨d, s1, hb, hlen, hall, hcount⟩ :=
    buildData_ok tickers ht catalog hcat (Int.fdiv n catalog.length).toNat s
  rw [generate_dataset_eq tickers catalog hne n s d s1 hb]
  have hperm : ((shuffleList d s1).1).Perm d := shuffleList_perm d s1
  refine ⟨?_, ?_, ?_, rfl, rfl⟩
  · rw [hperm.length_eq, hlen]
  · intro r hr
    exact hall r (hperm.mem_iff.mp hr)
  · intro c
    rw [hperm.countP_eq, hcount c]


/-! ### Shape of every generated record (fixed catalogs) -/

theorem getLast?_ne_of_not_mem (u : List Char) (h : '.' ∉ u) :
    u.getLast? ≠ some '.' := by
  intro he
  exact h (List.mem_of_mem_getLast? (by rw [he]; exact Option.mem_some_iff.mpr rfl))

theorem endsOnePeriod_concat (u : List Char) (h : u.getLast? ≠ some '.') :
    endsOnePeriod (u ++ ['.']) = true := by
  unfold endsOnePeriod
  rw [List.getLast?_concat, List.dropLast_concat]
  simp [h]

theorem tmplOK_of_mem (p : String × List String) (hp : p ∈ NEWS_TEMPLATES)
    (tp : String) (htp : tp ∈ p.2) : tmplOK tp = true := by
  have h := catalog_ok
  rw [List.all_eq_true] at h
  have h2 := h p hp
  rw [Bool.and_eq_true, Bool.and_eq_true] at h2
  exact List.all_eq_true.mp h2.2 tp htp

theorem catOK_of_mem (p : String × List String) (hp : p ∈ NEWS_TEMPLATES) :
    catOK p.1 = true := by
  have h := catalog_ok
  rw [List.all_eq_true] at h
  have h2 := h p hp
  rw [Bool.and_eq_true, Bool.and_eq_true] at h2
  exact h2.1.1

theorem tmpl_split (tp : String) (h : tmplOK tp = true) :
    ∃ tail : List Char, tp.data = phChars ++ tail ∧ tail ≠ [] ∧ '{' ∉ tail ∧
      '.' ∉ tail ∧ cleanL tail = true := by
  unfold tmplOK at h
  rw [Bool.and_eq_true, Bool.and_eq_true] at h
  obtain ⟨⟨h1, h2⟩, h3⟩ := h
  obtain ⟨tail, htail⟩ := List.isPrefixOf_iff_prefix.mp h1
  have hdrop : tp.data.drop 8 = tail := by
    rw [← htail]
    exact List.drop_left phChars tail
  rw [hdrop] at h2 h3
  rw [List.all_eq_true] at h3
  refine ⟨tail, htail.symm, ?_, ?_, ?_, ?_⟩
  · intro he
    rw [he] at h2
    exact absurd h2 (by decide)
  · intro hm
    have := h3 '{' hm
    simp at this
  · intro hm
    have := h3 '.' hm
    simp at this
  · unfold cleanL
    rw [List.all_eq_true]
    intro c hc
    have hx := h3 c hc
    rw [Bool.and_eq_true, Bool.and_eq_true] at hx
    exact hx.1.1

theorem formatTicker_eq (tp t : String) (tail : List Char)
    (hsplit : tp.data = phChars ++ tail) (hnb : '{' ∉ tail) :
    (formatTicker tp t).data = t.data ++ tail := by
  show replacePH t.data tp.data = t.data ++ tail
  rw [hsplit, replacePH_of_split t.data tail hnb]

/-- Every record generated against the fixed catalogs has: a ticker from
`TICKERS`, news of the form `ticker ++ template-tail ++ "."`, and change
of the form `category ++ "."`. -/
theorem fixed_record_shape (r : Record)
    (h : ∃ p ∈ NEWS_TEMPLATES, RecordOK TICKERS p.1 p.2 r) :
    r.ticker ∈ TICKERS ∧
    (∃ cat ∈ categoryNames, r.change = cat ++ ".") ∧
    ∃ tail : List Char, tail ≠ [] ∧ '.' ∉ tail ∧ '{' ∉ tail ∧ cleanL tail = true ∧
      r.news.data = r.ticker.data ++ tail ++ ['.'] := by
  obtain ⟨p, hp, ht, hchange, tp, htp, hnews⟩ := h
  refine ⟨ht, ⟨p.1, List.mem_map_of_mem Prod.fst hp, hchange⟩, ?_⟩
  obtain ⟨tail, hsplit, hne, hnb, hnp, hclean⟩ :=
    tmpl_split tp (tmplOK_of_mem p hp tp htp)
  refine ⟨tail, hne, hnp, hnb, hclean, ?_⟩
  rw [hnews, String.data_append, formatTicker_eq tp r.ticker tail hsplit hnb]

/-! ### Specialization to the script's fixed catalogs -/

theorem countFor_one : ∀ c ∈ categoryNames,
    NEWS_TEMPLATES.countP (fun p => p.1 = c) = 1 := by decide

theorem runFixed_spec (n : Int) (s : RState) :
    (runFixed n s).data.length = 12 * (Int.fdiv n 12).toNat ∧
    (∀ r ∈ (runFixed n s).data, ∃ p ∈ NEWS_TEMPLATES, RecordOK TICKERS p.1 p.2 r) ∧
    (∀ c ∈ categoryNames,
        (runFixed n s).data.countP (fun r => r.change = c ++ ".")
          = (Int.fdiv n 12).toNat) ∧
    (runFixed n s).written = some (csvContent (runFixed n s).data) ∧
    (runFixed n s).err
        = (if 3 ≤ (runFixed n s).data.length then none
           else some PyErr.indexError) := by
  unfold runFixed
  obtain ⟨hlen, hmem, hcount, hw, he⟩ :=
    generate_dataset_spec TICKERS NEWS_TEMPLATES TICKERS_ne
      NEWS_TEMPLATES_nonempty NEWS_TEMPLATES_ne n s
  rw [categories_count] at hlen hcount
  simp only [Nat.cast_ofNat] at hlen hcount
  refine ⟨hlen, hmem, ?_, hw, he⟩
  intro c hc
  rw [hcount c, countFor_one c hc, Nat.mul_one]

/-! ### Claim theorems -/

/-- C1: for every positive `total_samples` and the fixed 12-category
catalog, `generate_dataset` produces exactly `total_samples div 12`
records for each category, the realized dataset size is
`(total_samples div 12) * 12`, and that size is at most the requested
`total_samples`. -/
theorem claim_c1_balanced_quota (n : Int) (h : 0 < n) (c : String)
    (hc : c ∈ categoryNames) (s : RState) :
    (runFixed n s).data.countP (fun r => r.change = c ++ ".")
        = (Int.fdiv n 12).toNat ∧
    (runFixed n s).data.length = (Int.fdiv n 12).toNat * 12 ∧
    ((runFixed n s).data.length : Int) ≤ n := by
  obtain ⟨hlen, _, hcount, _, _⟩ := runFixed_spec n s
  refine ⟨hcount c hc, by rw [hlen, Nat.mul_comm], ?_⟩
  rw [hlen, Int.fdiv_eq_ediv n (by norm_num)]
  push_cast
  omega

/-- C1 witness: at `total_samples = 1205` (seed 42) the per-category
quota is 100 and the realized total is 1200 ≤ 1205. -/
theorem claim_c1_balanced_quota_witness :
    (runFixed 1205 (seedState 42)).data.countP
        (fun r => r.change = "Gains slightly" ++ ".") = 100 ∧
    (runFixed 1205 (seedState 42)).data.length = 1200 ∧
    ((runFixed 1205 (seedState 42)).data.length : Int) ≤ 1205 := by
  have h := claim_c1_balanced_quota 1205 (by norm_num) "Gains slightly"
    (by decide) (seedState 42)
  have h100 : (Int.fdiv 1205 12).toNat = 100 := by decide
  rw [h100] at h
  exact h

/-- C2: every record produced by `generate_dataset` has a `news` field
ending in exactly one trailing period that contains the record's
`ticker` as a substring, and a `change` field ending in exactly one
trailing period that, with the period stripped, is one of the 12
category names. -/
theorem claim_c2_format_invariants (n : Int) (s : RState) (r : Record)
    (hr : r ∈ (runFixed n s).data) :
    endsOnePeriod r.news.data = true ∧
    r.ticker.data <:+: r.news.data ∧
    endsOnePeriod r.change.data = true ∧
    ∃ c ∈ categoryNames, r.change = c ++ "." := by
  obtain ⟨_, hmem, _, _, _⟩ := runFixed_spec n s
  obtain ⟨ht, ⟨cat, hcatm, hchange⟩, tail, hne, hnp, hnb, hclean, hnews⟩ :=
    fixed_record_shape r (hmem r hr)
  refine ⟨?_, ?_, ?_, ⟨cat, hcatm, hchange⟩⟩
  · rw [hnews]
    refine endsOnePeriod_concat _ ?_
    rw [List.getLast?_append_of_ne_nil _ hne]
    exact getLast?_ne_of_not_mem tail hnp
  · exact ⟨[], tail ++ ['.'], by rw [hnews]; simp⟩
  · have hc : r.change.data = cat.data ++ ['.'] := by
      rw [hchange, String.data_append]
    rw [hc]
    refine endsOnePeriod_concat _ ?_
    obtain ⟨p, hp, hp1⟩ := List.mem_map.mp hcatm
    refine getLast?_ne_of_not_mem _ ?_
    intro hm
    have hok := catOK_of_mem p hp
    unfold catOK at hok
    rw [List.all_eq_true] at hok
    have := hok '.' (by rw [hp1]; exact hm)
    simp at this

/-- C2 witness: a concrete record of the `seedState 0` run at
`total_samples = 12` satisfies all four format invariants. -/
theorem claim_c2_format_invariants_witness :
    Record.mk "NVDA" "NVDA edges up slightly on neutral trading session."
        "Gains slightly." ∈ (runFixed 12 zeroState).data ∧
    (endsOnePeriod ("NVDA edges up slightly on neutral trading session.").data = true ∧
     ("NVDA").data <:+: ("NVDA edges up slightly on neutral trading session.").data ∧
     endsOnePeriod ("Gains slightly.").data = true ∧
     ∃ c ∈ categoryNames, ("Gains slightly." : String) = c ++ ".") := by
  have hm : Record.mk "NVDA" "NVDA edges up slightly on neutral trading session."
      "Gains slightly." ∈ (runFixed 12 zeroState).data := by decide
  exact ⟨hm, claim_c2_format_invariants 12 zeroState _ hm⟩

/-- C8: in every output of the generator, each record's ticker belongs
to the fixed catalog `TICKERS`, and each record's change label, with
its period stripped, is a category of the fixed catalog
`NEWS_TEMPLATES`. -/
theorem claim_c8_catalog_membership (n : Int) (s : RState) (r : Record)
    (hr : r ∈ (runFixed n s).data) :
    r.ticker ∈ TICKERS ∧ ∃ c ∈ categoryNames, r.change = c ++ "." := by
  obtain ⟨_, hmem, _, _, _⟩ := runFixed_spec n s
  obtain ⟨p, hp, ht, hchange, _⟩ := hmem r hr
  exact ⟨ht, ⟨p.1, List.mem_map_of_mem Prod.fst hp, hchange⟩⟩

/-- C8 witness: a concrete record of the `zeroState` run at
`total_samples = 24` has its ticker in `TICKERS` and its change label
in the category catalog. -/
theorem claim_c8_catalog_membership_witness :
    Record.mk "NVDA" "NVDA gains modestly on encouraging earnings data."
        "Gains modestly." ∈ (runFixed 24 zeroState).data ∧
    (("NVDA" : String) ∈ TICKERS ∧
     ∃ c ∈ categoryNames, ("Gains modestly." : String) = c ++ ".") := by
  have hm : Record.mk "NVDA" "NVDA gains modestly on encouraging earnings data."
      "Gains modestly." ∈ (runFixed 24 zeroState).data := by decide
  exact ⟨hm, claim_c8_catalog_membership 24 zeroState _ hm⟩

/-- C10: for every `num_samples ≥ 12` and the fixed catalogs, the run
completes without raising: the dataset holds at least 12 records, so the
example-printing loop's accesses `data[0]`, `data[1]`, `data[2]` are in
bounds and no exception is recorded. -/
theorem claim_c10_safety (n : Int) (h : 12 ≤ n) (s : RState) :
    (runFixed n s).err = none ∧ 12 ≤ (runFixed n s).data.length := by
  obtain ⟨hlen, _, _, _, herr⟩ := runFixed_spec n s
  have h1 : 1 ≤ (Int.fdiv n 12).toNat := by
    rw [Int.fdiv_eq_ediv n (by norm_num)]
    omega
  have hge : 12 ≤ (runFixed n s).data.length := by
    rw [hlen]
    omega
  refine ⟨?_, hge⟩
  rw [herr, if_pos (le_trans (by norm_num) hge)]

/-- C10 witness: the run at exactly `num_samples = 12` records no
exception and yields 12 records. -/
theorem claim_c10_safety_witness :
    (runFixed 12 zeroState).err = none ∧
    12 ≤ (runFixed 12 zeroState).data.length :=
  claim_c10_safety 12 (by norm_num) zeroState

/-- C3: determinism — the run is a pure function of the seed, the
catalogs and `total_samples`, so two runs from equal seeds produce the
same result and in particular byte-identical output files. -/
theorem claim_c3_determinism (seed1 seed2 : Nat) (n : Int)
    (h : seed1 = seed2) :
    (mainRun seed1 n).written = (mainRun seed2 n).written ∧
    mainRun seed1 n = mainRun seed2 n := by
  rw [h]
  exact ⟨rfl, rfl⟩

/-- C3 witness: two runs with the script's seed 42 and
`num_samples = 1200` agree, in particular on the written file. -/
theorem claim_c3_determinism_witness :
    (mainRun 42 1200).written = (mainRun 42 1200).written ∧
    mainRun 42 1200 = mainRun 42 1200 :=
  claim_c3_determinism 42 42 1200 rfl

/-- Shared helper: for `total_samples < 12` the quota is zero, the
dataset is empty, the output file is still written (header only), and
the run then raises IndexError at `data[0]` in the example-printing
loop. -/
theorem runFixed_small (n : Int) (h : n < 12) (s : RState) :
    (Int.fdiv n 12).toNat = 0 ∧
    (runFixed n s).data = [] ∧
    (runFixed n s).written = some csvHeader ∧
    (runFixed n s).err = some PyErr.indexError := by
  have h0 : (Int.fdiv n 12).toNat = 0 := by
    rw [Int.fdiv_eq_ediv n (by norm_num)]
    omega
  obtain ⟨hlen, _, _, hw, herr⟩ := runFixed_spec n s
  rw [h0, Nat.mul_zero] at hlen
  have hdata : (runFixed n s).data = [] := List.length_eq_zero.mp hlen
  refine ⟨h0, hdata, ?_, ?_⟩
  · rw [hw, hdata]
    rfl
  · rw [herr, hdata]
    norm_num

/-- C5 counterexample: at `total_samples = 5` the quota is 0 and the
dataset is empty as the claim states, but the run is NOT accepted — it
records an exception instead of completing without error. -/
theorem claim_c5_counterexample :
    (Int.fdiv 5 12).toNat = 0 ∧
    (runFixed 5 zeroState).data = [] ∧
    (runFixed 5 zeroState).err ≠ none := by decide

/-- C5 as amended: when `total_samples < category_count`, the quota is 0
and the dataset is empty, and the CSV file (header only) is written, but
the run then fails with IndexError in the example-printing loop
(`data[0]` on an empty list) instead of completing without error. -/
theorem claim_c5_amended (n : Int) (h : n < 12) (s : RState) :
    (Int.fdiv n 12).toNat = 0 ∧
    (runFixed n s).data = [] ∧
    (runFixed n s).written = some csvHeader ∧
    (runFixed n s).err = some PyErr.indexError :=
  runFixed_small n h s

/-- C5 amended witness: the concrete small run at `total_samples = 5`. -/
theorem claim_c5_amended_witness :
    (Int.fdiv 5 12).toNat = 0 ∧
    (runFixed 5 zeroState).data = [] ∧
    (runFixed 5 zeroState).written = some csvHeader ∧
    (runFixed 5 zeroState).err = some PyErr.indexError :=
  claim_c5_amended 5 (by norm_num) zeroState

/-- C6 counterexample: at `total_samples = 0` the generator does NOT
abort before I/O with `ConfigurationError` — the output file is written
(header only), and the exception that does occur is IndexError, not
ConfigurationError. -/
theorem claim_c6_counterexample :
    (runFixed 0 zeroState).written ≠ none ∧
    (runFixed 0 zeroState).err ≠ some PyErr.configurationError := by decide

/-- C6 as amended: for every non-positive `total_samples` the generator
does not raise any configuration error; it computes a zero quota,
writes the header-only output file, and then fails with IndexError in
the example-printing loop — i.e. the failure happens after the file
I/O, not before it. -/
theorem claim_c6_amended (n : Int) (h : n ≤ 0) (s : RState) :
    (runFixed n s).data = [] ∧
    (runFixed n s).written = some csvHeader ∧
    (runFixed n s).err = some PyErr.indexError := by
  obtain ⟨_, hd, hw, he⟩ := runFixed_small n (by omega) s
  exact ⟨hd, hw, he⟩

/-- C6 amended witness: the concrete run at `total_samples = 0`. -/
theorem claim_c6_amended_witness :
    (runFixed 0 zeroState).data = [] ∧
    (runFixed 0 zeroState).written = some csvHeader ∧
    (runFixed 0 zeroState).err = some PyErr.indexError :=
  claim_c6_amended 0 (by norm_num) zeroState

/-! ### Empty-catalog failures (C4) -/

theorem choice_error {α : Type} (l : List α) (s : RState) (e : PyErr)
    (h : choice l s = .error e) : e = PyErr.indexError := by
  cases l with
  | nil =>
    unfold choice at h
    exact (Except.error.inj h).symm
  | cons a rest =>
    unfold choice at h
    cases h

theorem genRecord_error (tickers tmpls : List String) (cat : String)
    (s : RState) (e : PyErr)
    (h : genRecord tickers cat tmpls s = .error e) : e = PyErr.indexError := by
  unfold genRecord at h
  split at h
  · rename_i e1 heq
    exact (Except.error.inj h) ▸ choice_error tickers s e1 heq
  · rename_i t s1 heq
    split at h
    · rename_i e2 heq2
      exact (Except.error.inj h) ▸ choice_error tmpls s1 e2 heq2
    · cases h

theorem genCategory_error (tickers tmpls : List String) (cat : String) :
    ∀ (k : Nat) (s : RState) (e : PyErr),
      genCategory tickers cat tmpls k s = .error e → e = PyErr.indexError := by
  intro k
  induction k with
  | zero =>
    intro s e h
    cases h
  | succ k ih =>
    intro s e h
    unfold genCategory at h
    split at h
    · rename_i e1 heq
      exact (Except.error.inj h) ▸ genRecord_error tickers tmpls cat s e1 heq
    · rename_i r s1 heq
      split at h
      · rename_i e2 heq2
        exact (Except.error.inj h) ▸ ih s1 e2 heq2
      · cases h

theorem buildData_error (tickers : List String) :
    ∀ (catalog : List (String × List String)) (k : Nat) (s : RState) (e : PyErr),
      buildData tickers catalog k s = .error e → e = PyErr.indexError := by
  intro catalog
  induction catalog with
  | nil =>
    intro k s e h
    cases h
  | cons entry rest ih =>
    intro k s e h
    unfold buildData at h
    split at h
    · rename_i e1 heq
      exact (Except.error.inj h) ▸ genCategory_error tickers entry.2 entry.1 k s e1 heq
    · rename_i block s1 heq
      split at h
      · rename_i e2 heq2
        exact (Except.error.inj h) ▸ ih k s1 e2 heq2
      · cases h

theorem genCategory_fails (tickers tmpls : List String) (cat : String)
    (k : Nat) (hk : 1 ≤ k) (s : RState)
    (hbad : tickers = [] ∨ tmpls = []) :
    ∃ e, genCategory tickers cat tmpls k s = .error e := by
  match k, hk with
  | k + 1, _ =>
    have hrec : ∃ e, genRecord tickers cat tmpls s = .error e := by
      rcases hbad with h | h
      · subst h
        exact ⟨PyErr.indexError, rfl⟩
      · subst h
        unfold genRecord
        cases hc : choice tickers s with
        | error e1 => exact ⟨e1, rfl⟩
        | ok v1 =>
          obtain ⟨t, s1⟩ := v1
          exact ⟨PyErr.indexError, rfl⟩
    obtain ⟨e, he⟩ := hrec
    refine ⟨e, ?_⟩
    unfold genCategory
    rw [he]

theorem buildData_fails (tickers : List String) (k : Nat) (hk : 1 ≤ k) :
    ∀ (catalog : List (String × List String)) (s : RState),
      (tickers = [] ∧ catalog ≠ []) ∨ (∃ p ∈ catalog, p.2 = []) →
      ∃ e, buildData tickers catalog k s = .error e := by
  intro catalog
  induction catalog with
  | nil =>
    intro s hbad
    rcases hbad with ⟨_, hne⟩ | ⟨p, hp, _⟩
    · exact absurd rfl hne
    · cases hp
  | cons entry rest ih =>
    intro s hbad
    have hsplit :
        (tickers = [] ∨ entry.2 = []) ∨
          ((tickers = [] ∧ rest ≠ []) ∨ ∃ p ∈ rest, p.2 = []) ∨
            (tickers = [] ∧ rest = []) := by
      rcases hbad with ⟨ht, _⟩ | ⟨p, hp, hp2⟩
      · rcases List.eq_nil_or_concat rest with hr | _
        · exact Or.inr (Or.inr ⟨ht, hr⟩)
        · exact Or.inl (Or.inl ht)
      · rcases List.mem_cons.mp hp with he | hm
        · exact Or.inl (Or.inr (he ▸ hp2))
        · exact Or.inr (Or.inl (Or.inr ⟨p, hm, hp2⟩))
    rcases hsplit with hfirst | hrest | ⟨ht, _⟩
    · obtain ⟨e, he⟩ := genCategory_fails tickers entry.2 entry.1 k hk s hfirst
      refine ⟨e, ?_⟩
      unfold buildData
      rw [he]
    · cases hc : genCategory tickers entry.1 entry.2 k s with
      | error e1 =>
        refine ⟨e1, ?_⟩
        unfold buildData
        rw [hc]
      | ok v1 =>
        obtain ⟨block, s1⟩ := v1
        obtain ⟨e, he⟩ := ih s1 hrest
        refine ⟨e, ?_⟩
        unfold buildData
        rw [hc]
        dsimp only
        rw [he]
    · obtain ⟨e, he⟩ := genCategory_fails tickers entry.2 entry.1 k hk s (Or.inl ht)
      refine ⟨e, ?_⟩
      unfold buildData
      rw [he]

/-- C4 counterexample: with a category whose template list is empty the
generator does fail before any I/O, but with IndexError (from
`random.choice` on the empty sequence), not with `ConfigurationError` —
no such error class exists in the program. -/
theorem claim_c4_counterexample :
    (generate_dataset TICKERS [("Gains slightly", [])] 1 zeroState).written = none ∧
    (generate_dataset TICKERS [("Gains slightly", [])] 1 zeroState).err
        = some PyErr.indexError ∧
    (generate_dataset TICKERS [("Gains slightly", [])] 1 zeroState).err
        ≠ some PyErr.configurationError := by decide

/-- C4 as amended: if any category's template list is empty or the
ticker catalog is empty (and at least one record is to be drawn), the
generator fails with IndexError — raised by `random.choice` on an empty
sequence — rather than crashing unpredictably or silently skipping the
category, and the failure occurs before any I/O: no output file is
written. -/
theorem claim_c4_amended (tickers : List String)
    (catalog : List (String × List String)) (hne : catalog ≠ []) (n : Int)
    (hk : 1 ≤ (Int.fdiv n catalog.length).toNat)
    (hbad : tickers = [] ∨ ∃ p ∈ catalog, p.2 = []) (s : RState) :
    (generate_dataset tickers catalog n s).written = none ∧
    (generate_dataset tickers catalog n s).err = some PyErr.indexError := by
  have hbad2 : (tickers = [] ∧ catalog ≠ []) ∨ (∃ p ∈ catalog, p.2 = []) := by
    rcases hbad with h | h
    · exact Or.inl ⟨h, hne⟩
    · exact Or.inr h
  obtain ⟨e, he⟩ :=
    buildData_fails tickers (Int.fdiv n catalog.length).toNat hk catalog s hbad2
  have heq := generate_dataset_err tickers catalog hne n s e he
  have hidx := buildData_error tickers catalog (Int.fdiv n catalog.length).toNat s e he
  rw [heq, hidx]
  exact ⟨rfl, rfl⟩

/-- C4 amended witness: the concrete degenerate catalog with one
template-less category. -/
theorem claim_c4_amended_witness :
    (generate_dataset TICKERS [("Gains slightly", [])] 1 zeroState).written = none ∧
    (generate_dataset TICKERS [("Gains slightly", [])] 1 zeroState).err
        = some PyErr.indexError :=
  claim_c4_amended TICKERS [("Gains slightly", [])] (by decide) 1 (by decide)
    (Or.inr ⟨("Gains slightly", []), by decide, rfl⟩) zeroState

/-! ### The printed per-category counts (C9) -/

theorem append_period_inj (a b : String) : a ++ "." = b ++ "." ↔ a = b := by
  constructor
  · intro h
    apply String.ext
    have h2 := congrArg String.data h
    rw [String.data_append, String.data_append] at h2
    exact List.append_cancel_right h2
  · intro h
    rw [h]

/-- In the fixed catalog, the substring test `category in change`
succeeds exactly on the record's own category: no category name occurs
as a substring of another category's change string. -/
theorem category_substring_test : ∀ c ∈ categoryNames, ∀ c2 ∈ categoryNames,
    containsSub (c2 ++ ".").data c.data = decide (c = c2) := by decide

/-- C9: the per-category counts printed in the summary, computed with
the substring test `category in d["change"]` over the shuffled data,
are each exactly `samples_per_category = num_samples div 12`. -/
theorem claim_c9_summary_counts (n : Int) (s : RState) (c : String)
    (hc : c ∈ categoryNames) :
    (runFixed n s).data.countP (fun r => containsSub r.change.data c.data)
      = (Int.fdiv n 12).toNat := by
  obtain ⟨_, hmem, hcount, _, _⟩ := runFixed_spec n s
  rw [← hcount c hc]
  apply List.countP_congr
  intro r hr
  obtain ⟨p, hp, _, hchange, _⟩ := hmem r hr
  have hp1 : p.1 ∈ categoryNames := List.mem_map_of_mem Prod.fst hp
  rw [hchange, category_substring_test c hc p.1 hp1]
  have hiff : (p.1 ++ "." = c ++ ".") ↔ (c = p.1) := by
    rw [append_period_inj]
    exact eq_comm
  rw [decide_eq_decide.mpr hiff]

/-- C9 witness: at `num_samples = 24` the printed count for
"Gains slightly" is exactly 2. -/
theorem claim_c9_summary_counts_witness :
    (runFixed 24 zeroState).data.countP
        (fun r => containsSub r.change.data ("Gains slightly").data) = 2 := by
  have h := claim_c9_summary_counts 24 zeroState "Gains slightly" (by decide)
  have h2 : (Int.fdiv 24 12).toNat = 2 := by decide
  rw [h2] at h
  exact h

/-! ### Parsing the produced file (C7) -/


theorem pcsv_nil : pcsv [] [] [] = [] := rfl

theorem pcsv_comma (cs f : List Char) (row : List (List Char)) :
    pcsv (',' :: cs) f row = pcsv cs [] (row ++ [f]) := rfl

theorem pcsv_crlf (cs f : List Char) (row : List (List Char)) :
    pcsv ('\r' :: '\n' :: cs) f row = (row ++ [f]) :: pcsv cs [] [] := rfl

theorem pcsv_other (c : Char) (cs f : List Char) (row : List (List Char))
    (h1 : c ≠ ',') (h2 : c ≠ '\r') (h3 : c ≠ '\n') :
    pcsv (c :: cs) f row = pcsv cs (f ++ [c]) row := by
  rw [pcsv.eq_def]
  split <;> simp_all

theorem pcsv_field (f : List Char) (hf : cleanL f = true) :
    ∀ (rest acc : List Char) (row : List (List Char)),
      pcsv (f ++ rest) acc row = pcsv rest (acc ++ f) row := by
  induction f with
  | nil =>
    intro rest acc row
    simp
  | cons c f ih =>
    intro rest acc row
    have hsplit : cleanChar c = true ∧ cleanL f = true := by
      unfold cleanL at hf
      rw [List.all_cons, Bool.and_eq_true] at hf
      exact hf
    have hc : (¬c = ',' ∧ ¬c = '"') ∧ (¬c = '\r') ∧ ¬c = '\n' := by
      have h1 := hsplit.1
      unfold cleanChar at h1
      simp at h1
      obtain ⟨⟨⟨hA, hB⟩, hC⟩, hD⟩ := h1
      exact ⟨⟨hA, hB⟩, hC, hD⟩
    rw [List.cons_append, pcsv_other c (f ++ rest) acc row hc.1.1 hc.2.1 hc.2.2]
    rw [ih hsplit.2 rest (acc ++ [c]) row]
    rw [List.append_cons acc c f]

theorem needsQuote_eq_false (cs : List Char) (h : cleanL cs = true) :
    needsQuote cs = false := by
  unfold cleanL at h
  unfold needsQuote
  rw [List.all_eq_true] at h
  rw [List.any_eq_false]
  intro c hc hcontra
  have h2 := h c hc
  unfold cleanChar at h2
  rw [hcontra] at h2
  simp at h2

theorem csvField_clean (s : String) (h : cleanL s.data = true) :
    csvField s = s.data := by
  unfold csvField
  rw [needsQuote_eq_false s.data h]
  rfl

/-- Parsing one serialized 3-field row consumes it into one parsed row. -/
theorem pcsv_row3 (a b c : List Char) (ha : cleanL a = true)
    (hb : cleanL b = true) (hc : cleanL c = true) (rest : List Char) :
    pcsv (a ++ (',' :: (b ++ (',' :: (c ++ ('\r' :: '\n' :: rest)))))) [] []
      = [a, b, c] :: pcsv rest [] [] := by
  rw [pcsv_field a ha _ [] []]
  rw [pcsv_comma]
  rw [pcsv_field b hb _ [] _]
  rw [pcsv_comma]
  rw [pcsv_field c hc _ [] _]
  rw [pcsv_crlf]
  simp

theorem cleanL_append (a b : List Char) :
    cleanL (a ++ b) = (cleanL a && cleanL b) := List.all_append

theorem TICKERS_clean : ∀ t ∈ TICKERS, cleanL t.data = true := by decide

theorem catOK_clean (c : String) (h : catOK c = true) : cleanL c.data = true := by
  unfold catOK at h
  unfold cleanL
  rw [List.all_eq_true] at h ⊢
  intro x hx
  exact ((Bool.and_eq_true _ _).mp (h x hx)).1

/-- Every record generated against the fixed catalogs has only
CSV-clean fields: the writer never needs to quote. -/
theorem record_clean (r : Record)
    (h : ∃ p ∈ NEWS_TEMPLATES, RecordOK TICKERS p.1 p.2 r) :
    cleanL r.ticker.data = true ∧ cleanL r.news.data = true ∧
      cleanL r.change.data = true := by
  obtain ⟨ht, ⟨cat, hcatm, hchange⟩, tail, _, _, _, hcleanTail, hnews⟩ :=
    fixed_record_shape r h
  have htick : cleanL r.ticker.data = true := TICKERS_clean _ ht
  refine ⟨htick, ?_, ?_⟩
  · rw [hnews, cleanL_append, cleanL_append, htick, hcleanTail]
    decide
  · obtain ⟨p, hp, hp1⟩ := List.mem_map.mp hcatm
    have hcl : cleanL cat.data = true := by
      rw [← hp1]
      exact catOK_clean p.1 (catOK_of_mem p hp)
    rw [hchange, String.data_append, cleanL_append, hcl]
    decide

theorem pcsv_rows (data : List Record)
    (hclean : ∀ r ∈ data, cleanL r.ticker.data = true ∧
      cleanL r.news.data = true ∧ cleanL r.change.data = true) :
    pcsv ((data.map csvRow).flatten) [] []
      = data.map (fun r => [r.ticker.data, r.news.data, r.change.data]) := by
  induction data with
  | nil =>
    simp only [List.map_nil, List.flatten_nil]
    exact pcsv_nil
  | cons r ds ih =>
    obtain ⟨h1, h2, h3⟩ := hclean r (List.mem_cons_self r ds)
    rw [List.map_cons, List.flatten_cons]
    have hform : csvRow r ++ (List.map csvRow ds).flatten
        = r.ticker.data ++ (',' :: (r.news.data ++ (',' ::
            (r.change.data ++ ('\r' :: '\n' :: (List.map csvRow ds).flatten))))) := by
      unfold csvRow
      rw [csvField_clean _ h1, csvField_clean _ h2, csvField_clean _ h3]
      simp
    rw [hform]
    rw [pcsv_row3 _ _ _ h1 h2 h3]
    rw [ih (fun x hx => hclean x (List.mem_cons_of_mem r hx))]
    rw [List.map_cons]

theorem pcsv_content (data : List Record)
    (hclean : ∀ r ∈ data, cleanL r.ticker.data = true ∧
      cleanL r.news.data = true ∧ cleanL r.change.data = true) :
    pcsv (csvContent data) [] []
      = [("ticker").data, ("news").data, ("change").data] ::
          data.map (fun r => [r.ticker.data, r.news.data, r.change.data]) := by
  unfold csvContent csvHeader
  have hform : (("ticker,news,change").data ++ ['\r', '\n'])
        ++ (List.map csvRow data).flatten
      = ("ticker").data ++ (',' :: (("news").data ++ (',' ::
          (("change").data ++ ('\r' :: '\n' :: (List.map csvRow data).flatten))))) := by
    have hh : ("ticker,news,change").data
        = ("ticker").data ++ (',' :: (("news").data ++ (',' :: ("change").data))) := by
      decide
    rw [hh]
    simp
  rw [hform]
  rw [pcsv_row3 _ _ _ (by decide) (by decide) (by decide)]
  rw [pcsv_rows data hclean]

/-- C7: parsing the produced file with a standard delimited-text reader
yields one header row with field names exactly `ticker, news, change`,
followed by exactly `total_samples - (total_samples mod 12)` data
rows. -/
theorem claim_c7_round_trip (n : Int) (h : 0 < n) (s : RState) :
    ∃ (content : List Char) (body : List (List (List Char))),
      (runFixed n s).written = some content ∧
      pcsv content [] []
        = [("ticker").data, ("news").data, ("change").data] :: body ∧
      (body.length : Int) = n - n % 12 := by
  obtain ⟨hlen, hmem, _, hw, _⟩ := runFixed_spec n s
  refine ⟨csvContent (runFixed n s).data,
    (runFixed n s).data.map (fun r => [r.ticker.data, r.news.data, r.change.data]),
    hw, ?_, ?_⟩
  · exact pcsv_content _ (fun r hr => record_clean r (hmem r hr))
  · rw [List.length_map, hlen, Int.fdiv_eq_ediv n (by norm_num)]
    push_cast
    omega

/-- C7 witness: at `total_samples = 12` the parsed file is the header
row plus exactly 12 data rows. -/
theorem claim_c7_round_trip_witness :
    ∃ (content : List Char) (body : List (List (List Char))),
      (runFixed 12 zeroState).written = some content ∧
      pcsv content [] []
        = [("ticker").data, ("news").data, ("change").data] :: body ∧
      (body.length : Int) = 12 := by
  obtain ⟨c, b, h1, h2, h3⟩ := claim_c7_round_trip 12 (by norm_num) zeroState
  refine ⟨c, b, h1, h2, ?_⟩
  rw [h3]
  decide
